import Mathlib

/-!
Verification of the Job Description Generator
(`moeez1234567/Job_descriptor`), a React/TypeScript frontend in front of a
Flask text-generation backend.

The frontend (`src/Frontend/src/main.tsx`) holds the form state, the
client-side validator `validateForm`, the input-change handlers, the submit
handler that builds the JSON payload and calls the backend, and the
copy-to-clipboard logic.  Numbers that JavaScript stores as IEEE doubles are
modelled as rationals (`ℚ`); the `number|null` / `number|''` unions of the
TypeScript state are modelled with `Option ℚ`, where `none` stands for the
cleared (`null` resp. `''`) state that an HTML number input reports for an
empty or non-numeric entry.

The backend module (the Flask app with the prompt composer and the keyword
emphasizer) is not part of the repository snapshot; where a property depends
on it, the relevant component is modelled from the specification and marked
`Modelled from the spec:` in its doc comment.
-/

namespace JobDescriptor

/-- The form state, from the `JobDescriptionForm` interface and `useState`
initialisation in `src/Frontend/src/main.tsx` (lines 18–54).
`min_experience_years : Option ℚ` models the `number | string` field whose
reachable values are a number or the empty string (`none`); `min_salary`
and `max_salary` model `number | null` with `none` for `null`. -/
structure JobDescriptionForm where
  job_title : String
  company_name : String
  location : String
  workplace : String
  skills : List String
  min_experience_years : Option ℚ
  exp_level_category : String
  min_salary : Option ℚ
  max_salary : Option ℚ
  deadline : String
  notes : String
  qualification_details : String
  benefits_details : String
  style_preference : String
  output_length_preference : String
  deriving DecidableEq, Repr

/-- JavaScript's `String.prototype.trim`: strip whitespace from both ends
of the string. -/
def jsTrim (s : String) : String :=
  String.mk (((s.data.dropWhile Char.isWhitespace).reverse.dropWhile
    Char.isWhitespace).reverse)

/-- The check `formData.min_experience_years === "" || Number(...) < 0` of
`validateForm` (main.tsx line 86): the empty-string state fails, a number
fails when negative. -/
def minExpInvalid : Option ℚ → Bool
  | none => true
  | some q => decide (q < 0)

/-- The validator `validateForm` from `src/Frontend/src/main.tsx` lines 79–92, as the
(ordered) association list of field-level errors it stores in `formErrors`.
Each rule is evaluated independently; the JavaScript truthiness test
`!s.trim()` is `jsTrim s = ""`.  The source performs no check on
`min_salary` / `max_salary` (its comment at line 88 notes the possibility
and leaves salary unvalidated). -/
def validateForm (f : JobDescriptionForm) : List (String × String) :=
  (if jsTrim f.job_title = "" then [("job_title", "Job title is required")] else []) ++
  (if jsTrim f.company_name = "" then [("company_name", "Company name is required")] else []) ++
  (if jsTrim f.location = "" then [("location", "Location is required")] else []) ++
  (if f.workplace = "" then [("workplace", "Workplace type is required")] else []) ++
  (if f.skills.length = 0 then
    [("skills", "At least one skill is required (comma-separated)")] else []) ++
  (if minExpInvalid f.min_experience_years then
    [("min_experience_years", "Valid minimum experience (0 or more) is required")] else []) ++
  (if f.exp_level_category = "" then
    [("exp_level_category", "Experience level is required")] else [])

/-- Whether the error list contains an entry for field `k`. -/
def hasError (errs : List (String × String)) (k : String) : Bool :=
  errs.any (fun e => e.1 = k)

/-- The skills normalisation of `handleSkillsChange` (main.tsx lines
134–137): split the textarea value on commas, trim each piece, drop the
pieces that are empty after trimming. -/
def parseSkills (s : String) : List String :=
  ((s.splitOn ",").map jsTrim).filter (fun x => x ≠ "")

/-- The JSON payload built by `handleSubmit` (main.tsx lines 170–175):
the form fields with `null` salaries replaced by `0` and the experience
coerced to a number (`Number("") = 0`). -/
structure Payload where
  job_title : String
  company_name : String
  location : String
  workplace : String
  skills : List String
  min_experience_years : ℚ
  exp_level_category : String
  min_salary : ℚ
  max_salary : ℚ
  deadline : String
  notes : String
  qualification_details : String
  benefits_details : String
  style_preference : String
  output_length_preference : String
  deriving DecidableEq, Repr

/-- The `payload` construction in `handleSubmit` (main.tsx lines 170–175):
`min_salary: formData.min_salary === null ? 0 : Number(formData.min_salary)`
and likewise for `max_salary`; `min_experience_years:
Number(formData.min_experience_years)` where `Number("") = 0`. -/
def mkPayload (f : JobDescriptionForm) : Payload :=
  { job_title := f.job_title
    company_name := f.company_name
    location := f.location
    workplace := f.workplace
    skills := f.skills
    min_experience_years := f.min_experience_years.getD 0
    exp_level_category := f.exp_level_category
    min_salary := f.min_salary.getD 0
    max_salary := f.max_salary.getD 0
    deadline := f.deadline
    notes := f.notes
    qualification_details := f.qualification_details
    benefits_details := f.benefits_details
    style_preference := f.style_preference
    output_length_preference := f.output_length_preference }

/-- Outcome of a submission attempt: either the handler stops with the
validation errors it stored (`if (!validateForm()) return;`, main.tsx lines
158–160), or it issues the network request with the built payload
(lines 170–189). -/
inductive SubmitOutcome where
  | validationError (errors : List (String × String))
  | request (payload : Payload)
  deriving DecidableEq, Repr

/-- The handler `handleSubmit` (main.tsx lines 154–189) up to the network boundary:
validation failure short-circuits before any fetch; otherwise the payload
is sent. -/
def handleSubmit (f : JobDescriptionForm) : SubmitOutcome :=
  if validateForm f = [] then .request (mkPayload f)
  else .validationError (validateForm f)

/-! ### Term Emphasizer

The keyword emphasizer runs in the Flask backend module, which is absent
from the repository snapshot (the README points at `flask_app.py` and
`test_bold_formatting.py`; only the React frontend is present).  The
component is therefore modelled from the specification, §4.4. -/

/-- Modelled from the spec: a word character, for the whole-word boundary
checks of §4.4 step 2 ("at minimum for ASCII alphanumerics"). -/
def isWordChar (c : Char) : Bool := c.isAlphanum

/-- Modelled from the spec: case folding used for the case-insensitive
match (§4.4 steps 1–2). -/
def foldCase (l : List Char) : List Char := l.map Char.toLower

/-- Modelled from the spec: the candidate term set of §4.4 step 1 — every
skill string case-folded, de-duplicated case-insensitively, empty skills
contributing nothing. -/
def candidateTerms (skills : List String) : List (List Char) :=
  ((skills.map (fun s => foldCase s.data)).filter (fun t => t ≠ [])).dedup

/-- Modelled from the spec: the match must not begin mid-word — the
character before the scan position, if any, is not a word character. -/
def beginOk : Option Char → Bool
  | none => true
  | some c => !(isWordChar c)

/-- Modelled from the spec: the match must not end mid-word — the
character following the matched span, if any, is not a word character. -/
def endOk : List Char → Bool
  | [] => true
  | c :: _ => !(isWordChar c)

/-- Modelled from the spec: whether candidate term `t` matches at the
current scan position (§4.4 step 2): `t` is non-empty, the case-folded
text starts with `t`, and both whole-word boundaries hold. -/
def canMatchAt (prev : Option Char) (text : List Char) (t : List Char) : Bool :=
  decide (t ≠ []) &&
  decide (foldCase (text.take t.length) = t) &&
  beginOk prev &&
  endOk (text.drop t.length)

/-- Modelled from the spec: the length of the longest candidate matching at
the current position (0 when none matches) — the longest-match-first rule
of §4.4 steps 1 and 3. -/
def matchAt (cands : List (List Char)) (prev : Option Char) (text : List Char) : Nat :=
  (cands.filter (canMatchAt prev text)).foldr (fun t m => max t.length m) 0

/-- Modelled from the spec: HTML escaping of markup-significant characters
outside matched spans (§4.4 step 6). -/
def escChar (c : Char) : List Char :=
  if c = '&' then "&amp;".data
  else if c = '<' then "&lt;".data
  else if c = '>' then "&gt;".data
  else [c]

/-- Modelled from the spec: the left-to-right scan of §4.4 producing the
HTML rendering: at each position the longest matching candidate term is
wrapped (original-cased source substring inside `<b>`/`</b>`) and the scan
advances past the whole consumed span; otherwise one character is escaped
and emitted.  `fuel` bounds recursion and is always at least the text
length at the top-level call. -/
def emphasizeHtmlAux (cands : List (List Char)) :
    Nat → Option Char → List Char → List Char
  | 0, _, _ => []
  | _ + 1, _, [] => []
  | fuel + 1, prev, c :: rest =>
    let text := c :: rest
    let L := matchAt cands prev text
    if 0 < L then
      "<b>".data ++ text.take L ++ "</b>".data ++
        emphasizeHtmlAux cands fuel (text.take L).getLast? (text.drop L)
    else
      escChar c ++ emphasizeHtmlAux cands fuel (some c) rest

/-- Modelled from the spec: the same scan emitting unmarked, unescaped
spans — the plain rendering of §4.4 step 5. -/
def emphasizePlainAux (cands : List (List Char)) :
    Nat → Option Char → List Char → List Char
  | 0, _, _ => []
  | _ + 1, _, [] => []
  | fuel + 1, prev, c :: rest =>
    let text := c :: rest
    let L := matchAt cands prev text
    if 0 < L then
      text.take L ++ emphasizePlainAux cands fuel (text.take L).getLast? (text.drop L)
    else
      c :: emphasizePlainAux cands fuel (some c) rest

/-- Modelled from the spec: `emphasized_html` of the GenerationResult. -/
def emphasizedHtml (skills : List String) (raw_text : String) : String :=
  String.mk (emphasizeHtmlAux (candidateTerms skills) raw_text.data.length none raw_text.data)

/-- Modelled from the spec: `emphasized_plain` of the GenerationResult,
produced by the same scan without markers or escaping. -/
def emphasizedPlain (skills : List String) (raw_text : String) : String :=
  String.mk (emphasizePlainAux (candidateTerms skills) raw_text.data.length none raw_text.data)

/-- The success-response fields the frontend consumes (`data.status`,
`data.job_description`, `data.raw_description`, main.tsx lines 194–197).
`raw_description = ""` models a falsy (absent or empty) field. -/
structure BackendResponse where
  status : String
  job_description : String
  raw_description : String
  deriving DecidableEq, Repr

/-- The copy-to-clipboard target stored by `handleSubmit`:
`setRawResult(data.raw_description || data.job_description)` (main.tsx
line 196); `handleCopyToClipboard` (lines 218–230) writes exactly this
string to the clipboard. -/
def rawResultOf (data : BackendResponse) : String :=
  if data.raw_description = "" then data.job_description else data.raw_description

/-! ### Deadline defaulting

The default deadline is computed twice in the frontend: once on mount
(`useEffect`, main.tsx lines 66–76: `setDate(getDate() + 30)` then
`toISOString().split("T")[0]`) and once on reset (`handleResetForm`,
lines 244–246: `new Date(Date.now() + 30 * 24 * 60 * 60 * 1000)`).
Time is modelled as milliseconds since the Unix epoch (UTC); both
computations add exactly thirty days' worth of milliseconds. -/

/-- Milliseconds per day, the `24 * 60 * 60 * 1000` of `handleResetForm`. -/
def msPerDay : Nat := 24 * 60 * 60 * 1000

/-- The day number (days since 1970-01-01) of an epoch-millisecond time. -/
def daysOfMs (ms : Nat) : Nat := ms / msPerDay

/-- Proleptic-Gregorian calendar date `(year, month, day)` of a day number,
the civil-from-days conversion that JavaScript's `toISOString` performs. -/
def civilFromDays (z : Nat) : Nat × Nat × Nat :=
  let zs := z + 719468
  let era := zs / 146097
  let doe := zs % 146097
  let yoe := (doe - doe / 1460 + doe / 36524 - doe / 146097) / 365
  let y := yoe + era * 400
  let doy := doe - (365 * yoe + yoe / 4 - yoe / 100)
  let mp := (5 * doy + 2) / 153
  let d := doy - (153 * mp + 2) / 5 + 1
  let m := if mp < 10 then mp + 3 else mp - 9
  (if m ≤ 2 then y + 1 else y, m, d)

/-- Two-digit zero padding of the month and day components. -/
def pad2 (n : Nat) : String :=
  if n < 10 then "0" ++ toString n else toString n

/-- The `YYYY-MM-DD` rendering of a civil date, the `toISOString().split("T")[0]`
format used for the deadline field. -/
def formatISODate : Nat × Nat × Nat → String
  | (y, m, d) => toString y ++ "-" ++ pad2 m ++ "-" ++ pad2 d

/-- The `YYYY-MM-DD` date of an epoch-millisecond time. -/
def toISODateOfMs (ms : Nat) : String :=
  formatISODate (civilFromDays (daysOfMs ms))

/-- The deadline the mount-time `useEffect` (main.tsx lines 66–76) stores:
the current date plus 30 days, rendered `YYYY-MM-DD`. -/
def initialDeadline (mountMs : Nat) : String :=
  toISODateOfMs (mountMs + 30 * msPerDay)

/-- The deadline `handleResetForm` (main.tsx lines 244–246) stores:
`Date.now() + 30 * 24 * 60 * 60 * 1000`, rendered `YYYY-MM-DD`. -/
def resetDeadline (nowMs : Nat) : String :=
  toISODateOfMs (nowMs + 30 * msPerDay)

/-- A form session: the deadline default is computed at mount time, the
submission happens (possibly much) later. -/
structure FormSession where
  mountMs : Nat
  submitMs : Nat
  deriving DecidableEq, Repr

/-- The deadline value `handleSubmit` reads when the user has not edited
the deadline field: the value the mount-time `useEffect` stored. -/
def deadlineAtSubmission (s : FormSession) : String :=
  initialDeadline s.mountMs

/-! ### Dynamic field updates

`handleInputChange` (main.tsx lines 95–131) updates the JavaScript state
object by computed key (`{...prev, [name]: processedValue}`) and deletes
the edited field's entry from the error object.  The state object is
modelled as a total map from field names to field values; a number input's
`e.target.value` is modelled as `Option ℚ` (`none` for the empty string an
HTML number input reports when cleared or given non-numeric text). -/

/-- A value stored in the form-state object: a string, a parsed number,
`null` (cleared salary), the empty string kept for a cleared experience
field, `NaN` (the `parseFloat('')` of the residual number branch), or the
skills array. -/
inductive FieldVal where
  | vStr (s : String)
  | vNum (q : ℚ)
  | vNull
  | vEmptyStr
  | vNaN
  | vSkills (l : List String)
  deriving DecidableEq, Repr

/-- The `e.target` content the handler sees: a text/select/textarea value,
or a number input's value (`none` models the empty string). -/
inductive InputValue where
  | text (s : String)
  | number (q : Option ℚ)
  deriving DecidableEq, Repr

/-- The form-state object, keyed by field name. -/
def FormState : Type := String → FieldVal

/-- The `formErrors` object, keyed by field name. -/
def ErrState : Type := String → Option String

/-- The `processedValue` computation of `handleInputChange` (main.tsx lines
102–115): salary fields map the empty string to `null`, the experience
field keeps it as `''`, the residual number branch is `parseFloat(value)`. -/
def processedValue (name : String) (v : InputValue) : FieldVal :=
  match v with
  | .text s => .vStr s
  | .number q =>
    if name = "min_salary" ∨ name = "max_salary" then
      match q with
      | none => .vNull
      | some x => .vNum x
    else if name = "min_experience_years" then
      match q with
      | none => .vEmptyStr
      | some x => .vNum x
    else
      match q with
      | none => .vNaN
      | some x => .vNum x

/-- The spread update `{...prev, [name]: value}` on the state object. -/
def setFieldState (st : FormState) (name : String) (v : FieldVal) : FormState :=
  fun k => if k = name then v else st k

/-- The error-clearing step (main.tsx lines 124–130): only when the edited
field currently has an error, copy the object and delete that one key. -/
def clearFieldError (errs : ErrState) (name : String) : ErrState :=
  if (errs name).isSome then (fun k => if k = name then none else errs k) else errs

/-- The handler `handleInputChange` (main.tsx lines 95–131) as a state transformer on
the form-state and error objects. -/
def handleInputChange (st : FormState) (errs : ErrState) (name : String)
    (v : InputValue) : FormState × ErrState :=
  (setFieldState st name (processedValue name v), clearFieldError errs name)

/-- The handler `handleSkillsChange` (main.tsx lines 133–151): store the normalised
skills array and clear only the `skills` error. -/
def handleSkillsChange (st : FormState) (errs : ErrState) (value : String) :
    FormState × ErrState :=
  (setFieldState st "skills" (.vSkills (parseSkills value)), clearFieldError errs "skills")

/-! ### Concrete sample inputs used by witnesses and counterexamples -/

/-- A form whose `job_title` is blank after trimming and whose skills list
is empty, every other field valid. -/
def c3form : JobDescriptionForm :=
  { job_title := "   ", company_name := "Acme", location := "Lahore",
    workplace := "Remote", skills := [], min_experience_years := some 2,
    exp_level_category := "Mid Level", min_salary := none, max_salary := none,
    deadline := "2026-01-01", notes := "", qualification_details := "",
    benefits_details := "", style_preference := "LinkedIn",
    output_length_preference := "Standard" }

/-- A fully valid form except that `max_salary` (80000) is below
`min_salary` (120000). -/
def c5form : JobDescriptionForm :=
  { job_title := "Backend Engineer", company_name := "Acme", location := "Lahore",
    workplace := "Remote", skills := ["Go", "Docker"], min_experience_years := some 2,
    exp_level_category := "Mid Level", min_salary := some 120000,
    max_salary := some 80000, deadline := "2026-01-01", notes := "",
    qualification_details := "", benefits_details := "",
    style_preference := "LinkedIn", output_length_preference := "Standard" }

/-- A sample form-state object. -/
def sampleState : FormState := fun _ => FieldVal.vStr ""

/-- A sample error object holding one error, on `location`. -/
def sampleErrors : ErrState :=
  fun k => if k = "location" then some "Location is required" else none

/-! ## Helper lemmas -/

/-- Error membership distributes over the list append of `validateForm`'s
independently evaluated rule blocks. -/
theorem hasError_append (a b : List (String × String)) (k : String) :
    hasError (a ++ b) k = (hasError a k || hasError b k) := by
  simp [hasError, List.any_append]

/-- Error membership for one conditional rule block. -/
theorem hasError_single (c : Prop) [Decidable c] (k m q : String) :
    hasError (if c then [(k, m)] else []) q = (decide c && decide (k = q)) := by
  split <;> simp_all [hasError]

/-- The validator reports a `skills` error exactly when the skills list is
empty. -/
theorem hasError_validateForm_skills (f : JobDescriptionForm) :
    hasError (validateForm f) "skills" = decide (f.skills.length = 0) := by
  unfold validateForm
  simp only [hasError_append, hasError_single]
  simp

/-- The validator reports a `min_experience_years` error exactly when the
experience check fires. -/
theorem hasError_validateForm_minExp (f : JobDescriptionForm) :
    hasError (validateForm f) "min_experience_years" =
      minExpInvalid f.min_experience_years := by
  unfold validateForm
  simp only [hasError_append, hasError_single]
  simp

/-- The plain-rendering scan reassembles the text it consumes. -/
theorem emphasizePlainAux_id (cands : List (List Char)) :
    ∀ (fuel : Nat) (prev : Option Char) (text : List Char),
      text.length ≤ fuel → emphasizePlainAux cands fuel prev text = text := by
  intro fuel
  induction fuel with
  | zero =>
    intro prev text h
    have : text = [] := List.eq_nil_of_length_eq_zero (Nat.le_zero.mp h)
    subst this
    rfl
  | succ n ih =>
    intro prev text h
    cases text with
    | nil => rfl
    | cons c rest =>
      rw [emphasizePlainAux]
      by_cases hL : 0 < matchAt cands prev (c :: rest)
      · rw [if_pos hL, ih _ _ (by simp at h ⊢; omega)]
        exact List.take_append_drop _ _
      · rw [if_neg hL, ih _ _ (by simpa using Nat.le_of_succ_le_succ h)]

/-- Any member's length is bounded by the running maximum of lengths. -/
theorem le_foldr_maxLen {t : List Char} :
    ∀ (l : List (List Char)), t ∈ l →
      t.length ≤ l.foldr (fun u m => max u.length m) 0 := by
  intro l hl
  induction l with
  | nil => cases hl
  | cons a l ih =>
    rcases List.mem_cons.mp hl with h | h
    · subst h; simp
    · exact le_trans (ih h) (by simp)

/-- A positive maximum of lengths is attained by a member. -/
theorem foldr_maxLen_attained :
    ∀ (l : List (List Char)),
      0 < l.foldr (fun u m => max u.length m) 0 →
      ∃ t ∈ l, t.length = l.foldr (fun u m => max u.length m) 0 := by
  intro l
  induction l with
  | nil => intro h; simp at h
  | cons a l ih =>
    intro h
    by_cases hc : l.foldr (fun u m => max u.length m) 0 ≤ a.length
    · exact ⟨a, List.mem_cons_self a l, by simp [max_eq_left hc]⟩
    · have hm : max a.length (l.foldr (fun u m => max u.length m) 0) =
          l.foldr (fun u m => max u.length m) 0 :=
        max_eq_right (le_of_not_le hc)
      obtain ⟨t, ht, he⟩ := ih (by simp [hm] at h; omega)
      exact ⟨t, List.mem_cons_of_mem a ht, by simp [hm, he]⟩

/-- Day arithmetic: adding thirty days' milliseconds advances the day
number by exactly thirty. -/
theorem daysOfMs_add_thirty (ms : Nat) :
    daysOfMs (ms + 30 * msPerDay) = daysOfMs ms + 30 := by
  unfold daysOfMs msPerDay
  exact Nat.add_mul_div_right _ _ (by norm_num)

/-! ## Claim theorems -/

/-- C1: for every raw_text and every skill list, the Term Emphasizer's
emphasized_plain output equals raw_text exactly — the same scan that wraps
terms for the HTML rendering emits the plain rendering without any
markers — and when the backend returns it (nonempty), the frontend's
copy-to-clipboard target (`rawResult`) is this verbatim raw text. -/
theorem C1_emphasized_plain_is_raw_text (skills : List String) (raw_text : String) :
    emphasizedPlain skills raw_text = raw_text ∧
    (raw_text ≠ "" →
      rawResultOf { status := "success",
                    job_description := emphasizedHtml skills raw_text,
                    raw_description := emphasizedPlain skills raw_text } = raw_text) := by
  have hid : emphasizedPlain skills raw_text = raw_text := by
    unfold emphasizedPlain
    rw [emphasizePlainAux_id _ _ _ _ (le_refl _)]
  refine ⟨hid, fun h => ?_⟩
  simp [rawResultOf, hid, h]

/-- C2: overlapping candidate terms are resolved longest-match-first — with
skills `["Go", "Google Cloud"]` and text "Experience with Google Cloud
required", only "Google Cloud" is wrapped; in general every candidate
matching at a position has length at most the consumed span, and any
consumed span begins and ends at a word boundary (so a term inside an
unrelated word is never matched) and is the span of an actual candidate. -/
theorem C2_longest_match_first :
    emphasizedHtml ["Go", "Google Cloud"] "Experience with Google Cloud required" =
      "Experience with <b>Google Cloud</b> required" ∧
    (∀ (cands : List (List Char)) (prev : Option Char) (text t : List Char),
      t ∈ cands → canMatchAt prev text t = true →
        t.length ≤ matchAt cands prev text) ∧
    (∀ (cands : List (List Char)) (prev : Option Char) (text : List Char),
      0 < matchAt cands prev text →
        beginOk prev = true ∧
        endOk (text.drop (matchAt cands prev text)) = true ∧
        ∃ t ∈ cands, canMatchAt prev text t = true ∧
          t.length = matchAt cands prev text) := by
  refine ⟨by decide, ?_, ?_⟩
  · intro cands prev text t htm hcm
    exact le_foldr_maxLen _ (List.mem_filter.mpr ⟨htm, hcm⟩)
  · intro cands prev text h
    obtain ⟨t, ht, he⟩ := foldr_maxLen_attained _ h
    obtain ⟨htc, hcm⟩ := List.mem_filter.mp ht
    have hd := hcm
    unfold canMatchAt at hd
    rw [Bool.and_eq_true, Bool.and_eq_true, Bool.and_eq_true] at hd
    refine ⟨hd.1.2, ?_, t, htc, hcm, he⟩
    rw [show matchAt cands prev text = t.length from he.symm]
    exact hd.2

/-- C3: the validator evaluates every rule independently and reports all
violations together — a request whose job_title is blank after trimming
and whose skills list is empty, all other fields valid, yields exactly the
two field errors `job_title` and `skills`. -/
theorem C3_all_violations_reported (f : JobDescriptionForm)
    (hjt : jsTrim f.job_title = "") (hsk : f.skills = [])
    (hcn : jsTrim f.company_name ≠ "") (hloc : jsTrim f.location ≠ "")
    (hwp : f.workplace ≠ "")
    (hexp : minExpInvalid f.min_experience_years = false)
    (hlvl : f.exp_level_category ≠ "") :
    validateForm f =
      [("job_title", "Job title is required"),
       ("skills", "At least one skill is required (comma-separated)")] := by
  simp [validateForm, hjt, hsk, hcn, hloc, hwp, hexp, hlvl]

/-- C3 witness: the two-error outcome at a concrete request. -/
theorem C3_all_violations_reported_witness :
    validateForm c3form =
      [("job_title", "Job title is required"),
       ("skills", "At least one skill is required (comma-separated)")] :=
  C3_all_violations_reported c3form (by decide) (by decide) (by decide)
    (by decide) (by decide) (by decide) (by decide)

/-- C4: skills normalisation splits on commas, trims each piece and drops
empty pieces — every kept piece is nonempty and is a trimmed piece of the
comma split — and validation fails the `skills` field if and only if the
resulting list is empty. -/
theorem C4_skills_normalisation (s : String) (f : JobDescriptionForm) :
    (∀ x ∈ parseSkills s, x ≠ "" ∧ x ∈ (s.splitOn ",").map jsTrim) ∧
    (hasError (validateForm { f with skills := parseSkills s }) "skills" = true ↔
      parseSkills s = []) := by
  constructor
  · intro x hx
    unfold parseSkills at hx
    obtain ⟨hm, hp⟩ := List.mem_filter.mp hx
    exact ⟨by simpa using hp, hm⟩
  · rw [hasError_validateForm_skills]
    simp [List.length_eq_zero]

/-- C5 counterexample: a request with min_salary 120000 and max_salary
80000 (all other fields valid) passes validation with no errors at all —
no `InvalidRange` error is produced on `max_salary`. -/
theorem C5_salary_pair_not_flagged :
    c5form.min_salary = some 120000 ∧ c5form.max_salary = some 80000 ∧
    (80000 : ℚ) < 120000 ∧ validateForm c5form = [] := by
  decide

/-- C5 amended: `validateForm` performs no salary-range check — changing
the salary bounds never changes the validation outcome. -/
theorem C5_salary_never_validated (f : JobDescriptionForm) (a b : Option ℚ) :
    validateForm { f with min_salary := a, max_salary := b } = validateForm f :=
  rfl

/-- C6: the experience field fails validation exactly when its value is
the cleared/non-numeric state or a negative number; any non-negative
number passes. -/
theorem C6_min_experience_rule (f : JobDescriptionForm) (v : Option ℚ) :
    hasError (validateForm { f with min_experience_years := v })
        "min_experience_years" = true ↔
      v = none ∨ ∃ q, v = some q ∧ q < 0 := by
  rw [hasError_validateForm_minExp]
  cases v <;> simp [minExpInvalid]

/-- C7: a request failing validation short-circuits before the network
stage — the submit handler's outcome is the structured field-error result,
never a backend request. -/
theorem C7_validation_short_circuits (f : JobDescriptionForm)
    (h : validateForm f ≠ []) :
    handleSubmit f = .validationError (validateForm f) ∧
    ∀ p, handleSubmit f ≠ .request p := by
  unfold handleSubmit
  rw [if_neg h]
  exact ⟨rfl, fun p hc => SubmitOutcome.noConfusion hc⟩

/-- C7 witness: the short-circuit at a concrete invalid request. -/
theorem C7_validation_short_circuits_witness :
    handleSubmit c3form = .validationError (validateForm c3form) ∧
    ∀ p, handleSubmit c3form ≠ .request p :=
  C7_validation_short_circuits c3form (by decide)

/-- C8 counterexample: a session mounted at epoch time 0 and submitted one
day later carries deadline 1970-01-31 — the mount-time date plus 30 days —
while the submission-time date plus 30 days is 1970-02-01; and a deadline
string that is not a calendar date is transmitted as given. -/
theorem C8_deadline_not_submission_time :
    deadlineAtSubmission { mountMs := 0, submitMs := msPerDay } = "1970-01-31" ∧
    toISODateOfMs (msPerDay + 30 * msPerDay) = "1970-02-01" ∧
    deadlineAtSubmission { mountMs := 0, submitMs := msPerDay } ≠
      toISODateOfMs (msPerDay + 30 * msPerDay) ∧
    (mkPayload { c5form with deadline := "not-a-date" }).deadline = "not-a-date" := by
  decide

/-- C8 amended: the deadline defaults to the form-initialisation-time
(mount or reset) current date plus exactly thirty days, rendered as a
calendar date; at submission the deadline field's current value is used as
given, with no parse check. -/
theorem C8_default_deadline_thirty_days (s : FormSession) (nowMs : Nat)
    (f : JobDescriptionForm) :
    deadlineAtSubmission s = formatISODate (civilFromDays (daysOfMs s.mountMs + 30)) ∧
    resetDeadline nowMs = formatISODate (civilFromDays (daysOfMs nowMs + 30)) ∧
    (mkPayload f).deadline = f.deadline := by
  refine ⟨?_, ?_, rfl⟩
  · unfold deadlineAtSubmission initialDeadline toISODateOfMs
    rw [daysOfMs_add_thirty]
  · unfold resetDeadline toISODateOfMs
    rw [daysOfMs_add_thirty]

/-- C9: the payload replaces an unspecified (`null`) salary bound by the
number 0, so an absent bound is transmitted identically to an explicit 0
and the two cases are indistinguishable downstream: the payloads agree,
and a transmitted bound of 0 means exactly `null`-or-`0` in the form. -/
theorem C9_null_salary_sent_as_zero (f : JobDescriptionForm) :
    mkPayload { f with min_salary := none } = mkPayload { f with min_salary := some 0 } ∧
    mkPayload { f with max_salary := none } = mkPayload { f with max_salary := some 0 } ∧
    ((mkPayload f).min_salary = 0 ↔ f.min_salary = none ∨ f.min_salary = some 0) ∧
    ((mkPayload f).max_salary = 0 ↔ f.max_salary = none ∨ f.max_salary = some 0) := by
  refine ⟨rfl, rfl, ?_, ?_⟩
  · rcases h : f.min_salary with _ | q <;> simp [mkPayload, h]
  · rcases h : f.max_salary with _ | q <;> simp [mkPayload, h]

/-- C10: editing a field updates only that field and removes at most (and
exactly) that field's own validation error — every other field's state and
error entry is unchanged, for both the generic input handler and the
skills handler. -/
theorem C10_edit_frame (st : FormState) (errs : ErrState) (name k : String)
    (v : InputValue) (sv : String) (hk : k ≠ name) :
    ((handleInputChange st errs name v).1 k = st k ∧
     (handleInputChange st errs name v).2 k = errs k ∧
     (handleInputChange st errs name v).2 name = none) ∧
    (k ≠ "skills" →
      (handleSkillsChange st errs sv).1 k = st k ∧
      (handleSkillsChange st errs sv).2 k = errs k) := by
  constructor
  · refine ⟨?_, ?_, ?_⟩
    · show setFieldState st name (processedValue name v) k = st k
      unfold setFieldState
      rw [if_neg hk]
    · show clearFieldError errs name k = errs k
      unfold clearFieldError
      split
      · simp [hk]
      · rfl
    · show clearFieldError errs name name = none
      unfold clearFieldError
      split
      · simp
      · next h => simpa [Option.not_isSome_iff_eq_none] using h
  · intro hks
    constructor
    · show setFieldState st "skills" (FieldVal.vSkills (parseSkills sv)) k = st k
      unfold setFieldState
      rw [if_neg hks]
    · show clearFieldError errs "skills" k = errs k
      unfold clearFieldError
      split
      · simp [hks]
      · rfl

/-- C10 witness: editing `job_title` leaves the `location` error in place. -/
theorem C10_edit_frame_witness :
    (handleInputChange sampleState sampleErrors "job_title" (.text "Dev")).2
      "location" = sampleErrors "location" :=
  ((C10_edit_frame sampleState sampleErrors "job_title" "location" (.text "Dev")
    "Go, SQL" (by decide)).1).2.1

end JobDescriptor
